import Mathlib

/-!
Shallow embedding of the crystal-core RBAC engine: the sheet cell model and
row mappers (lib/utils.ts, lib/data/sheets.ts), the entity-level data
adapter (lib/data/sheets.ts), the permission cache and resolver
(lib/rbac/permissions.ts), the role assignment manager (lib/rbac/roles.ts),
and the circuit breaker / retry gateway (lib/sheets/client.ts).

Timestamps are carried as ISO-8601 strings exactly as the source does; the
resolver never interprets them, so no clock parameter appears in
getUserRoles.  Wall-clock milliseconds (Date.now) are modelled as a Nat
parameter where the source reads the clock (cache TTL, circuit breaker).
Fallible storage calls are modelled as Except-valued fields of a Store
record; a catch block in the source becomes a match on the Except value.
-/

namespace CrystalCore

/-- A cell value as delivered by the Sheets API: a string, a boolean, a
number, or empty (covers both an empty cell and an absent/undefined cell,
which the source treats identically in every mapper). -/
inductive Cell where
  | str (s : String)
  | boolean (b : Bool)
  | num (n : Int)
  | empty
  deriving DecidableEq, Repr

/-- JavaScript toUpperCase over the ASCII content the schema stores,
modelled as per-character uppercasing. -/
def strToUpper (s : String) : String :=
  ⟨s.data.map Char.toUpper⟩

/-- lib/utils.ts parseBoolean: a boolean cell is returned as is, a string
cell is uppercased and compared with the literal TRUE, anything else is
false. -/
def parseBoolean : Cell → Bool
  | .boolean b => b
  | .str s => strToUpper s == "TRUE"
  | _ => false

/-- JavaScript truthiness of a cell value, used by the row mappers in the
pattern row[i] or undefined. -/
def cellTruthy : Cell → Bool
  | .str s => s != ""
  | .boolean b => b
  | .num n => n != 0
  | .empty => false

/-- The string content of a cell; the id/code/timestamp columns of the
schema hold strings, so non-string cells in those columns are out of the
modelled input space and read as the empty string. -/
def cellString : Cell → String
  | .str s => s
  | _ => ""

/-- The row-mapper pattern row[i] or undefined for optional string
columns: a falsy cell becomes none. -/
def cellOptString (c : Cell) : Option String :=
  if cellTruthy c then some (cellString c) else none

/-- ROLE_ASSIGNMENTS entity (lib/data/types.ts RoleAssignment). -/
structure RoleAssignment where
  assignment_id : String
  user_id : String
  role_id : String
  site_code : Option String
  assigned_by : String
  assigned_at : String
  expires_at : Option String
  is_active : Bool
  deriving DecidableEq, Repr

/-- ROLES entity (lib/data/types.ts Role). -/
structure Role where
  role_id : String
  role_code : String
  role_name : String
  description : String
  is_active : Bool
  deriving DecidableEq, Repr

/-- PERMISSIONS entity (lib/data/types.ts Permission); conditions is a raw
optional JSON string, opaque to the resolver. -/
structure Permission where
  permission_id : String
  role_id : String
  module_code : String
  action : String
  resource : String
  conditions : Option String
  is_active : Bool
  deriving DecidableEq, Repr

/-- MODULES entity (lib/data/types.ts Module). -/
structure Module where
  module_id : String
  module_code : String
  module_name : String
  is_active : Bool
  sort_order : Int
  deriving DecidableEq, Repr

/-- lib/data/sheets.ts mapRowToRoleAssignment, at the cell level: columns
0..7 are id, user, role, site (falsy becomes undefined), assigner,
assigned_at, expires_at (falsy becomes undefined), is_active via
parseBoolean. -/
def mapRowToRoleAssignment (row : List Cell) : RoleAssignment where
  assignment_id := cellString (row.getD 0 .empty)
  user_id := cellString (row.getD 1 .empty)
  role_id := cellString (row.getD 2 .empty)
  site_code := cellOptString (row.getD 3 .empty)
  assigned_by := cellString (row.getD 4 .empty)
  assigned_at := cellString (row.getD 5 .empty)
  expires_at := cellOptString (row.getD 6 .empty)
  is_active := parseBoolean (row.getD 7 .empty)

/-- The sheet contents at the entity level: each list is what the row
mappers produce from the corresponding sheet after the header row is
skipped. -/
structure DB where
  roles : List Role
  assignments : List RoleAssignment
  permissions : List Permission
  modules : List Module
  deriving Repr

namespace Adapter

/-- sheets.ts getRoleAssignments: rows filtered to the given user and
is_active true.  No expiry filtering happens here. -/
def getRoleAssignments (db : DB) (userId : String) : List RoleAssignment :=
  db.assignments.filter (fun a => a.user_id == userId && a.is_active)

/-- sheets.ts getRoleById: first role whose role_id matches, else null. -/
def getRoleById (db : DB) (roleId : String) : Option Role :=
  db.roles.find? (fun r => r.role_id == roleId)

/-- sheets.ts getPermissions: permissions of the role that are active. -/
def getPermissions (db : DB) (roleId : String) : List Permission :=
  db.permissions.filter (fun p => p.role_id == roleId && p.is_active)

/-- sheets.ts getActiveModules: active modules sorted by sort_order
(stable sort, as Array.prototype.sort with a numeric comparator). -/
def getActiveModules (db : DB) : List Module :=
  (db.modules.filter (fun m => m.is_active)).mergeSort
    (fun a b => a.sort_order ≤ b.sort_order)

end Adapter

/-- The dataService as seen by the resolver: each lookup either raises
(error) or yields its value.  A Store built from a DB never raises; the
all-raising store models a storage layer that fails on every call. -/
structure Store where
  getRoleAssignments : String → Except Unit (List RoleAssignment)
  getRoleById : String → Except Unit (Option Role)
  getPermissions : String → Except Unit (List Permission)
  getActiveModules : Except Unit (List Module)

/-- A well-behaved store backed by sheet contents. -/
def Store.ofDB (db : DB) : Store where
  getRoleAssignments := fun u => .ok (Adapter.getRoleAssignments db u)
  getRoleById := fun r => .ok (Adapter.getRoleById db r)
  getPermissions := fun r => .ok (Adapter.getPermissions db r)
  getActiveModules := .ok (Adapter.getActiveModules db)

/-- A storage layer that raises on every call. -/
def failStore : Store where
  getRoleAssignments := fun _ => .error ()
  getRoleById := fun _ => .error ()
  getPermissions := fun _ => .error ()
  getActiveModules := .error ()

/-- lib/rbac/types.ts UserRole. -/
structure UserRole where
  role_id : String
  role_code : String
  role_name : String
  site_code : Option String
  deriving DecidableEq, Repr

/-- lib/rbac/types.ts UserPermission; conditions carries the raw optional
JSON string fed to safeJsonParse, which is total (it falls back to an
empty object on malformed input) and whose output the resolver never
inspects. -/
structure UserPermission where
  module_code : String
  action : String
  resource : String
  conditions : Option String
  deriving DecidableEq, Repr

/-- lib/rbac/permissions.ts CacheEntry: resolved permissions plus the
absolute expiry instant in milliseconds. -/
structure CacheEntry where
  permissions : List UserPermission
  expiresAt : Nat
  deriving DecidableEq, Repr

/-- The in-memory permissionCache Map, as an association list whose lookup
finds the most recent binding. -/
def Cache := List (String × CacheEntry)

instance : DecidableEq Cache := by
  unfold Cache
  infer_instance

/-- Map.delete. -/
def cacheDelete (c : Cache) (userId : String) : Cache :=
  List.filter (fun p => p.1 != userId) c

/-- Map.set: the new binding shadows any previous one. -/
def cacheSet (c : Cache) (userId : String) (e : CacheEntry) : Cache :=
  (userId, e) :: cacheDelete c userId

/-- CACHE_TTL = 5 * 60 * 1000 milliseconds. -/
def CACHE_TTL : Nat := 5 * 60 * 1000

/-- permissions.ts getCachedPermissions: a missing entry is a miss; an
entry with Date.now() > expiresAt is deleted and reported as a miss;
otherwise the cached permissions are returned.  The returned cache
reflects the lazy eviction. -/
def getCachedPermissions (c : Cache) (now : Nat) (userId : String) :
    Option (List UserPermission) × Cache :=
  match List.lookup userId c with
  | none => (none, c)
  | some e =>
    if now > e.expiresAt then (none, cacheDelete c userId)
    else (some e.permissions, c)

/-- permissions.ts setCachedPermissions: insert with expiry now plus TTL. -/
def setCachedPermissions (c : Cache) (now : Nat) (userId : String)
    (permissions : List UserPermission) : Cache :=
  cacheSet c userId ⟨permissions, now + CACHE_TTL⟩

/-- permissions.ts invalidatePermissionCache: delete one entry or clear. -/
def invalidatePermissionCache (userId : Option String) (c : Cache) : Cache :=
  match userId with
  | some u => cacheDelete c u
  | none => []

/-- The loop body of getUserRoles: for each assignment fetch the role by
id (a fallible storage call) and keep it when found and active, pairing
it with the assignment site_code.  Any storage failure aborts the whole
computation (the catch in getUserRoles handles it). -/
def rolesOfAssignments (st : Store) : List RoleAssignment →
    Except Unit (List UserRole)
  | [] => .ok []
  | a :: rest =>
    match st.getRoleById a.role_id with
    | .error e => .error e
    | .ok role? =>
      match rolesOfAssignments st rest with
      | .error e => .error e
      | .ok tail =>
        match role? with
        | some role =>
          if role.is_active then
            .ok (⟨role.role_id, role.role_code, role.role_name, a.site_code⟩ :: tail)
          else
            .ok tail
        | none => .ok tail

/-- permissions.ts getUserRoles: fetch the user assignments (already
filtered by the adapter to is_active), resolve each role, keep active
roles; any storage error is caught and yields the empty list
(fail-closed).  Note that neither this function nor the adapter consults
expires_at or a clock. -/
def getUserRoles (st : Store) (userId : String) : List UserRole :=
  match st.getRoleAssignments userId with
  | .error _ => []
  | .ok assignments =>
    match rolesOfAssignments st assignments with
    | .ok roles => roles
    | .error _ => []

/-- The loop body of getUserPermissions: per-role permission lookup, each
permission flattened into a UserPermission.  The storage call may fail;
that failure is handled by the catch in getUserPermissions. -/
def permsOfRoles (st : Store) : List UserRole →
    Except Unit (List UserPermission)
  | [] => .ok []
  | r :: rest =>
    match st.getPermissions r.role_id with
    | .error e => .error e
    | .ok perms =>
      match permsOfRoles st rest with
      | .error e => .error e
      | .ok tail =>
        .ok ((perms.map (fun p =>
          ⟨p.module_code, p.action, p.resource, p.conditions⟩)) ++ tail)

/-- The body of the try block of getUserPermissions: getUserRoles (which
catches its own storage errors and degrades to no roles) followed by the
per-role permission lookups, which can still raise. -/
def computePermissions (st : Store) (userId : String) :
    Except Unit (List UserPermission) :=
  permsOfRoles st (getUserRoles st userId)

/-- permissions.ts getUserPermissions: serve from the cache on a hit; on a
miss, compute through getUserRoles and the per-role lookups, cache the
result, and return it; if the computation raises, return the empty list
without writing to the cache.  The second component is the cache after
the call, including lazy eviction performed by the cache read. -/
def getUserPermissions (st : Store) (c : Cache) (now : Nat) (userId : String) :
    List UserPermission × Cache :=
  match getCachedPermissions c now userId with
  | (some cached, c1) => (cached, c1)
  | (none, c1) =>
    match computePermissions st userId with
    | .ok allPermissions =>
      (allPermissions, setCachedPermissions c1 now userId allPermissions)
    | .error _ => ([], c1)

/-- The resource clause of hasPermission: the source guard is
resource and perm.resource not star and perm.resource not equal, where
the first conjunct is JavaScript truthiness, so an absent resource and an
empty-string resource both disable the clause. -/
def resourceBlocks (permResource : String) : Option String → Bool
  | none => false
  | some r => r != "" && permResource != "*" && permResource != r

/-- The predicate inside permissions.some of hasPermission: three
independent checks on module (exact or star), action (exact or star) and,
when a truthy resource was passed, resource (exact or star). -/
def matchPerm (perm : UserPermission) (moduleCode action : String)
    (resource : Option String) : Bool :=
  if perm.module_code != "*" && perm.module_code != moduleCode then false
  else if perm.action != "*" && perm.action != action then false
  else if resourceBlocks perm.resource resource then false
  else true

/-- permissions.ts hasPermission: some effective permission matches.  The
try/catch is vacuous here because getUserPermissions never raises. -/
def hasPermission (st : Store) (c : Cache) (now : Nat) (userId : String)
    (moduleCode action : String) (resource : Option String) : Bool × Cache :=
  let (perms, c1) := getUserPermissions st c now userId
  (perms.any (fun perm => matchPerm perm moduleCode action resource), c1)

/-- permissions.ts canAccessModule: some permission has the module code or
a star. -/
def canAccessModule (st : Store) (c : Cache) (now : Nat)
    (userId moduleCode : String) : Bool × Cache :=
  let (perms, c1) := getUserPermissions st c now userId
  (perms.any (fun perm =>
    perm.module_code == "*" || perm.module_code == moduleCode), c1)

/-- The insertion-order set of module codes built by the loop of
getUserModules when no wildcard is seen (Set plus Array.from). -/
def dedupCodes (perms : List UserPermission) : List String :=
  (perms.map (fun p => p.module_code)).foldl
    (fun acc code => if acc.contains code then acc else acc ++ [code]) []

/-- permissions.ts getUserModules: if any permission carries module_code
star, return the codes of all active modules (a further storage call whose
failure is caught and yields the empty list); otherwise the deduplicated
explicit codes. -/
def getUserModules (st : Store) (c : Cache) (now : Nat) (userId : String) :
    List String × Cache :=
  let (perms, c1) := getUserPermissions st c now userId
  if perms.any (fun p => p.module_code == "*") then
    match st.getActiveModules with
    | .ok ms => (ms.map (fun m => m.module_code), c1)
    | .error _ => ([], c1)
  else
    (dedupCodes perms, c1)

/-- permissions.ts hasRole: some effective role has the code; getUserRoles
already catches storage errors. -/
def hasRole (st : Store) (userId roleCode : String) : Bool :=
  (getUserRoles st userId).any (fun r => r.role_code == roleCode)

/-- permissions.ts isAdmin: SUPER_ADMIN or ADMIN. -/
def isAdmin (st : Store) (userId : String) : Bool :=
  hasRole st userId "SUPER_ADMIN" || hasRole st userId "ADMIN"

/-! Role assignment manager (lib/rbac/roles.ts) over the entity-level
adapter (lib/data/sheets.ts assignRole / revokeRole).  generateId and the
assignment timestamp are nondeterministic at the source; they enter the
model as parameters. -/

/-- sheets.ts assignRole: append a fresh assignment row. -/
def dbAssignRole (db : DB) (userId roleId : String) (siteCode : Option String)
    (assignedBy : String) (expiresAt : Option String)
    (newId assignedAt : String) : DB :=
  { db with assignments := db.assignments ++
      [⟨newId, userId, roleId, siteCode, assignedBy, assignedAt, expiresAt, true⟩] }

/-- Flip is_active to false on the list element at the given position
(the sheet write to row index + 2 of sheets.ts revokeRole). -/
def setInactiveAt : List RoleAssignment → Nat → List RoleAssignment
  | [], _ => []
  | a :: rest, 0 => { a with is_active := false } :: rest
  | a :: rest, n + 1 => a :: setInactiveAt rest n

/-- sheets.ts revokeRole: scan for the first row with the assignment id,
raise not-found when absent, else rewrite that row with is_active FALSE. -/
def dbRevokeRole (db : DB) (assignmentId : String) : Except Unit DB :=
  match db.assignments.findIdx? (fun a => a.assignment_id == assignmentId) with
  | none => .error ()
  | some i => .ok { db with assignments := setInactiveAt db.assignments i }

/-- roles.ts assignRole: create the assignment through the adapter, then
invalidate the permission cache entry of the user. -/
def assignRole (db : DB) (c : Cache) (userId roleId assignedBy : String)
    (siteCode expiresAt : Option String) (newId assignedAt : String) :
    DB × Cache :=
  (dbAssignRole db userId roleId siteCode assignedBy expiresAt newId assignedAt,
   invalidatePermissionCache (some userId) c)

/-- roles.ts revokeRole: revoke through the adapter (propagating
not-found), then invalidate the cache entry of the user. -/
def revokeRole (db : DB) (c : Cache) (assignmentId userId : String) :
    Except Unit (DB × Cache) :=
  match dbRevokeRole db assignmentId with
  | .error e => .error e
  | .ok db1 => .ok (db1, invalidatePermissionCache (some userId) c)

/-! Storage gateway (lib/sheets/client.ts): circuit breaker, bounded
retry, and the per-call composition used by read/write/append. -/

/-- CircuitBreaker state tag. -/
inductive CBState where
  | CLOSED
  | OPEN
  | HALF_OPEN
  deriving DecidableEq, Repr

/-- CircuitBreaker mutable fields: consecutive failures, state, and the
instant from which a new attempt is allowed while OPEN. -/
structure CB where
  failures : Nat
  state : CBState
  nextAttempt : Option Nat
  deriving DecidableEq, Repr

/-- The breaker as constructed: CLOSED with no failures. -/
def initCB : CB := ⟨0, .CLOSED, none⟩

/-- threshold = 5. -/
def cbThreshold : Nat := 5

/-- timeout = 60000 milliseconds. -/
def cbTimeout : Nat := 60000

/-- Errors surfaced by CircuitBreaker.execute: the fast-fail
circuit-is-OPEN error, or the rethrown error of the wrapped call. -/
inductive CBError where
  | circuitOpen
  | underlying
  deriving DecidableEq, Repr

/-- client.ts CircuitBreaker.onSuccess: reset failures, close. -/
def cbOnSuccess (cb : CB) : CB :=
  { cb with failures := 0, state := .CLOSED }

/-- client.ts CircuitBreaker.onFailure: count the failure; at the
threshold, open and start the cool-down from now. -/
def cbOnFailure (cb : CB) (now : Nat) : CB :=
  let f := cb.failures + 1
  if f ≥ cbThreshold then
    { cb with failures := f, state := .OPEN, nextAttempt := some (now + cbTimeout) }
  else
    { cb with failures := f }

/-- The try/catch around fn inside execute: a success returns the value
and runs onSuccess, a failure runs onFailure and rethrows. -/
def cbRunCall (cb : CB) (now : Nat) (outcome : Except Unit α) :
    Except CBError α × CB :=
  match outcome with
  | .ok a => (.ok a, cbOnSuccess cb)
  | .error _ => (.error .underlying, cbOnFailure cb now)

/-- The fast-fail guard of execute: nextAttempt is set and now is still
before it. -/
def cbWaiting (nextAttempt : Option Nat) (now : Nat) : Bool :=
  match nextAttempt with
  | some t => now < t
  | none => false

/-- client.ts CircuitBreaker.execute: while OPEN and before nextAttempt,
fail fast without invoking fn (the result does not depend on the outcome
argument and the breaker is unchanged); an OPEN breaker past nextAttempt
becomes HALF_OPEN and the call proceeds; otherwise the call proceeds
directly.  The outcome argument stands for what fn would do if invoked. -/
def cbExecute (cb : CB) (now : Nat) (outcome : Except Unit α) :
    Except CBError α × CB :=
  match cb.state with
  | .OPEN =>
    if cbWaiting cb.nextAttempt now then
      (.error .circuitOpen, cb)
    else
      cbRunCall { cb with state := .HALF_OPEN } now outcome
  | _ => cbRunCall cb now outcome

/-- One attempt of the function passed to retryWithBackoff: success, or a
failure classified as retryable (timeout, reset, 5xx, 429) or not. -/
inductive Attempt (α : Type) where
  | ok (a : α)
  | err (retryable : Bool)

/-- The indexed loop of client.ts retryWithBackoff over the remaining
attempt indices: on failure, rethrow when non-retryable or on the last
index, else sleep and continue.  The empty-list case is the unreachable
final throw of the source. -/
def retryList (attempts : Nat → Attempt α) : List Nat → Except Unit α
  | [] => .error ()
  | i :: rest =>
    match attempts i with
    | .ok a => .ok a
    | .err retryable =>
      if !retryable || rest.isEmpty then .error () else retryList attempts rest

/-- client.ts retryWithBackoff with maxRetries attempts (default 3). -/
def retryWithBackoff (attempts : Nat → Attempt α) (maxRetries : Nat) :
    Except Unit α :=
  retryList attempts (List.range maxRetries)

/-- The composition used by every SheetsClient operation (read, write,
append, batchRead, clear): circuitBreaker.execute wrapping
retryWithBackoff wrapping the network call, so the breaker sees one
outcome per call however many attempts the retry loop makes. -/
def sheetsCall (cb : CB) (now : Nat) (attempts : Nat → Attempt α) :
    Except CBError α × CB :=
  cbExecute cb now (retryWithBackoff attempts 3)

/-- SYSTEM_LOG entity (lib/data/types.ts SystemLog). -/
structure SystemLog where
  log_id : String
  timestamp : String
  level : String
  user_id : Option String
  module_code : Option String
  action : Option String
  message : String
  details : Option String
  correlation_id : Option String
  deriving DecidableEq, Repr

/-- The row serialization of sheets.ts createSystemLog: optional fields
become empty strings. -/
def systemLogRow (log : SystemLog) : List Cell :=
  [.str log.log_id, .str log.timestamp, .str log.level,
   .str (log.user_id.getD ""), .str (log.module_code.getD ""),
   .str (log.action.getD ""), .str log.message,
   .str (log.details.getD ""), .str (log.correlation_id.getD "")]

/-- sheets.ts createSystemLog: build the row, then sheets.append, which
runs through the circuit breaker and retry; there is no try/catch, so the
Except in the first component is exactly what the caller of
createSystemLog sees. -/
def createSystemLog (log : SystemLog) (cb : CB) (now : Nat)
    (appendAttempts : Nat → Attempt Unit) : Except CBError Unit × CB :=
  let _row := systemLogRow log
  sheetsCall cb now appendAttempts

/-! A pure description of what the resolver computes on a fresh cache over
a well-behaved store, used to state the functional claims. -/

/-- The roles getUserRoles yields over Store.ofDB: assignments of the user
that are active, whose role exists and is active. -/
def effRolesDB (db : DB) (userId : String) : List UserRole :=
  (Adapter.getRoleAssignments db userId).foldr
    (fun a acc =>
      match Adapter.getRoleById db a.role_id with
      | some role =>
        if role.is_active then
          ⟨role.role_id, role.role_code, role.role_name, a.site_code⟩ :: acc
        else acc
      | none => acc) []

/-- The permission list getUserPermissions computes over Store.ofDB on a
cache miss: active permissions of each effective role, in role order. -/
def effPermsDB (db : DB) (userId : String) : List UserPermission :=
  (effRolesDB db userId).foldr
    (fun r acc =>
      ((Adapter.getPermissions db r.role_id).map (fun p =>
        ⟨p.module_code, p.action, p.resource, p.conditions⟩)) ++ acc) []

/-- The refinement rendering of the spec sentence for hasPermission: a
permission matches when module is exact-or-star, action is exact-or-star,
and, when a resource is given, resource is exact-or-star. -/
def specMatch (p : UserPermission) (moduleCode action : String)
    (resource : Option String) : Bool :=
  (p.module_code == "*" || p.module_code == moduleCode) &&
  (p.action == "*" || p.action == action) &&
  (match resource with
   | none => true
   | some r => p.resource == "*" || p.resource == r)

/-- The amended rendering: an empty-string resource behaves like an absent
one, as forced by the JavaScript truthiness guard in the source. -/
def amendedMatch (p : UserPermission) (moduleCode action : String)
    (resource : Option String) : Bool :=
  (p.module_code == "*" || p.module_code == moduleCode) &&
  (p.action == "*" || p.action == action) &&
  (match resource with
   | none => true
   | some r =>
     if r == "" then true else p.resource == "*" || p.resource == r)

/-- The breaker invariant that justifies the HALF_OPEN-failure transition:
an OPEN breaker has at least threshold many recorded failures and a set
nextAttempt. -/
def CBInv (cb : CB) : Prop :=
  cb.state = .OPEN → cbThreshold ≤ cb.failures ∧ cb.nextAttempt ≠ none

/-- A concrete database used by several concrete evaluations: one active
role ADMIN, one active assignment of it to user u1 that expired in 2020,
one active permission HR/create/candidate, one active module HR. -/
def dbC1 : DB where
  roles := [⟨"r1", "ADMIN", "Admin", "", true⟩]
  assignments := [⟨"a1", "u1", "r1", none, "boss",
    "2020-01-01T00:00:00.000Z", some "2020-06-01T00:00:00.000Z", true⟩]
  permissions := [⟨"p1", "r1", "HR", "create", "candidate", none, true⟩]
  modules := [⟨"m1", "HR", "Human Resources", true, 1⟩]

/-! Helper lemmas. -/

lemma ofDB_getRoleAssignments (db : DB) (u : String) :
    (Store.ofDB db).getRoleAssignments u = .ok (Adapter.getRoleAssignments db u) := rfl

lemma ofDB_getRoleById (db : DB) (r : String) :
    (Store.ofDB db).getRoleById r = .ok (Adapter.getRoleById db r) := rfl

lemma ofDB_getPermissions (db : DB) (r : String) :
    (Store.ofDB db).getPermissions r = .ok (Adapter.getPermissions db r) := rfl

lemma ofDB_getActiveModules (db : DB) :
    (Store.ofDB db).getActiveModules = .ok (Adapter.getActiveModules db) := rfl

lemma rolesOfAssignments_ofDB (db : DB) (l : List RoleAssignment) :
    rolesOfAssignments (Store.ofDB db) l =
      .ok (l.foldr (fun a acc =>
        match Adapter.getRoleById db a.role_id with
        | some role =>
          if role.is_active then
            ⟨role.role_id, role.role_code, role.role_name, a.site_code⟩ :: acc
          else acc
        | none => acc) []) := by
  induction l with
  | nil => rfl
  | cons a rest ih =>
    simp only [rolesOfAssignments, ofDB_getRoleById, ih, List.foldr_cons]
    cases Adapter.getRoleById db a.role_id with
    | none => rfl
    | some role =>
      by_cases h : role.is_active <;> simp [h]

lemma getUserRoles_ofDB (db : DB) (userId : String) :
    getUserRoles (Store.ofDB db) userId = effRolesDB db userId := by
  simp only [getUserRoles, ofDB_getRoleAssignments, rolesOfAssignments_ofDB,
    effRolesDB]

lemma permsOfRoles_ofDB (db : DB) (l : List UserRole) :
    permsOfRoles (Store.ofDB db) l =
      .ok (l.foldr (fun r acc =>
        ((Adapter.getPermissions db r.role_id).map (fun p =>
          ⟨p.module_code, p.action, p.resource, p.conditions⟩)) ++ acc) []) := by
  induction l with
  | nil => rfl
  | cons r rest ih =>
    simp only [permsOfRoles, ofDB_getPermissions, ih, List.foldr_cons]

lemma computePermissions_ofDB (db : DB) (userId : String) :
    computePermissions (Store.ofDB db) userId = .ok (effPermsDB db userId) := by
  simp only [computePermissions, getUserRoles_ofDB, permsOfRoles_ofDB, effPermsDB]

lemma lookup_cacheDelete_self (c : Cache) (u : String) :
    List.lookup u (cacheDelete c u) = none := by
  induction c with
  | nil => rfl
  | cons p rest ih =>
    simp only [cacheDelete, List.filter] at ih ⊢
    by_cases h : p.1 = u
    · simp [h, bne_self_eq_false, ih]
    · have hb : (p.1 != u) = true := by simp [bne_iff_ne, h]
      simp only [hb, List.lookup]
      have : (u == p.1) = false := by
        simp [beq_eq_false_iff_ne]
        exact fun he => h he.symm
      simp [this, ih]

lemma lookup_cacheSet_self (c : Cache) (u : String) (e : CacheEntry) :
    List.lookup u (cacheSet c u e) = some e := by
  simp [cacheSet, List.lookup]

/-- On a cache miss (no entry for the user), a lookup against a
well-behaved store computes the pure permission list and caches it. -/
lemma getUserPermissions_fresh (db : DB) (c : Cache) (now : Nat)
    (userId : String) (h : List.lookup userId c = none) :
    getUserPermissions (Store.ofDB db) c now userId =
      (effPermsDB db userId,
       setCachedPermissions c now userId (effPermsDB db userId)) := by
  simp only [getUserPermissions, getCachedPermissions, h,
    computePermissions_ofDB]

/-- After a cache read reports a miss, the post-read cache has no entry
for the user. -/
lemma lookup_after_miss (c : Cache) (now : Nat) (u : String)
    (h : (getCachedPermissions c now u).1 = none) :
    List.lookup u (getCachedPermissions c now u).2 = none := by
  unfold getCachedPermissions at h ⊢
  cases hl : List.lookup u c with
  | none => simp [hl]
  | some e =>
    simp only [hl] at h ⊢
    by_cases ht : now > e.expiresAt
    · simp [ht, lookup_cacheDelete_self]
    · simp [ht] at h

/-- The guard chain of the source predicate coincides pointwise with the
amended positive formulation: empty-string resource behaves as absent. -/
lemma matchPerm_eq_amended (p : UserPermission) (m a : String)
    (r : Option String) : matchPerm p m a r = amendedMatch p m a r := by
  cases r with
  | none =>
    by_cases h1 : p.module_code = "*" <;> by_cases h2 : p.module_code = m <;>
      by_cases h3 : p.action = "*" <;> by_cases h4 : p.action = a <;>
        simp [matchPerm, amendedMatch, resourceBlocks, h1, h2, h3, h4]
  | some rr =>
    by_cases h0 : rr = "" <;> by_cases h1 : p.module_code = "*" <;>
      by_cases h2 : p.module_code = m <;> by_cases h3 : p.action = "*" <;>
        by_cases h4 : p.action = a <;> by_cases h5 : p.resource = "*" <;>
          by_cases h6 : p.resource = rr <;>
            simp [matchPerm, amendedMatch, resourceBlocks, h0, h1, h2, h3, h4,
              h5, h6]

lemma mem_dedup_aux (x : String) (l : List String) (acc : List String) :
    x ∈ l.foldl
      (fun acc code => if acc.contains code then acc else acc ++ [code]) acc ↔
      x ∈ acc ∨ x ∈ l := by
  induction l generalizing acc with
  | nil => simp
  | cons c rest ih =>
    simp only [List.foldl_cons, ih, List.mem_cons]
    by_cases h : acc.contains c
    · have hc : c ∈ acc := by simpa using h
      simp only [h, if_true]
      constructor
      · rintro (hx | hx)
        · exact Or.inl hx
        · exact Or.inr (Or.inr hx)
      · rintro (hx | hx | hx)
        · exact Or.inl hx
        · exact Or.inl (hx ▸ hc)
        · exact Or.inr hx
    · rw [if_neg h]
      simp only [List.mem_append, List.mem_singleton]
      tauto

lemma mem_dedupCodes (x : String) (perms : List UserPermission) :
    x ∈ dedupCodes perms ↔ x ∈ perms.map (fun p => p.module_code) := by
  unfold dedupCodes
  rw [mem_dedup_aux]
  simp

/-- Lexicographic order on character lists. -/
def lexLt : List Char → List Char → Bool
  | [], [] => false
  | [], _ :: _ => true
  | _ :: _, [] => false
  | a :: as, b :: bs => if a < b then true else if b < a then false else lexLt as bs

/-- Chronological order on ISO-8601 UTC timestamps of identical format,
which coincides with lexicographic character order; renders the phrase
"the expires_at timestamp is in the past". -/
def isoBefore (s t : String) : Bool :=
  lexLt s.data t.data

/-! Claim theorems. -/

/-- C1: the claim states that getUserRoles excludes a role assignment
whose expires_at lies in the past even when is_active is true.  The code
contradicts this: neither the adapter filter (user_id and is_active only)
nor getUserRoles reads expires_at or a clock, so the resolver has no time
parameter at all.  Evaluated at the failing input dbC1 — a single
assignment that is active but expired in June 2020 (its ISO-8601
expires_at precedes any later instant, witnessed here against a 2025
timestamp in the ISO string order) — the ADMIN role is still returned. -/
theorem C1_expired_assignment_included :
    dbC1.assignments = [⟨"a1", "u1", "r1", none, "boss",
      "2020-01-01T00:00:00.000Z", some "2020-06-01T00:00:00.000Z", true⟩] ∧
    isoBefore "2020-06-01T00:00:00.000Z" "2025-01-01T00:00:00.000Z" = true ∧
    getUserRoles (Store.ofDB dbC1) "u1" =
      [⟨"r1", "ADMIN", "Admin", none⟩] :=
  ⟨rfl, by decide, by decide⟩

/-- C2: with a storage layer that raises on every call and no cached
permission entry for the user, all three boolean checks return false and
all three collection queries return empty collections.  None of the six
propagates the error: each embedded operation is a total function whose
catch branches absorb the Except error of the storage layer. -/
theorem C2_fail_closed (c : Cache) (now : Nat) (u m a : String)
    (r : Option String) (h : List.lookup u c = none) :
    getUserRoles failStore u = [] ∧
    (getUserPermissions failStore c now u).1 = [] ∧
    (hasPermission failStore c now u m a r).1 = false ∧
    (canAccessModule failStore c now u m).1 = false ∧
    (getUserModules failStore c now u).1 = [] ∧
    isAdmin failStore u = false := by
  have hperm : getUserPermissions failStore c now u =
      ([], setCachedPermissions c now u []) := by
    simp only [getUserPermissions, getCachedPermissions, h]
    rfl
  refine ⟨rfl, ?_, ?_, ?_, ?_, rfl⟩
  · simp [hperm]
  · simp [hasPermission, hperm]
  · simp [canAccessModule, hperm]
  · simp [getUserModules, hperm, dedupCodes]

/-- C2 witness at a concrete input. -/
theorem C2_fail_closed_witness :
    List.lookup "u1" ([] : Cache) = none ∧
    (getUserRoles failStore "u1" = [] ∧
     (getUserPermissions failStore [] 0 "u1").1 = [] ∧
     (hasPermission failStore [] 0 "u1" "HR" "create" none).1 = false ∧
     (canAccessModule failStore [] 0 "u1" "HR").1 = false ∧
     (getUserModules failStore [] 0 "u1").1 = [] ∧
     isAdmin failStore "u1" = false) :=
  ⟨rfl, C2_fail_closed [] 0 "u1" "HR" "create" none rfl⟩

/-- C3 counterexample: the claim says that when a resource is given, a
permission must match it exactly or by a wildcard.  But the source guard
begins with JavaScript truthiness of the resource string, so passing the
empty string as the resource disables the resource check entirely: with
the single permission HR/create/candidate, the call with resource equal
to the empty string returns true although no effective permission matches
that resource under the claimed rule (rendered by specMatch, the literal
reading of the claim). -/
theorem C3_empty_resource_counterexample :
    (hasPermission (Store.ofDB dbC1) [] 0 "u1" "HR" "create" (some "")).1
      = true ∧
    (getUserPermissions (Store.ofDB dbC1) [] 0 "u1").1.any
      (fun p => specMatch p "HR" "create" (some "")) = false := by
  exact ⟨by decide, by decide⟩

/-- C3 amended: hasPermission returns true iff some permission computed
for the user (over a well-behaved store and a fresh cache) matches
moduleCode exactly or by wildcard, action exactly or by wildcard, and,
when a NON-EMPTY resource is given, resource exactly or by wildcard (an
empty-string resource behaves like an absent one); the three checks are
independent.  The two scenario evaluations of the claim hold as stated. -/
theorem C3_wildcard_matching (db : DB) (now : Nat) (u m a : String)
    (r : Option String) :
    ((hasPermission (Store.ofDB db) [] now u m a r).1 = true ↔
      ∃ p ∈ effPermsDB db u, amendedMatch p m a r = true) ∧
    (hasPermission (Store.ofDB dbC1) [] 0 "u1" "HR" "create"
      (some "candidate")).1 = true ∧
    (hasPermission (Store.ofDB dbC1) [] 0 "u1" "WMS" "create" none).1
      = false := by
  refine ⟨?_, by decide, by decide⟩
  have hfresh := getUserPermissions_fresh db [] now u rfl
  simp only [hasPermission, hfresh, List.any_eq_true, matchPerm_eq_amended]

/-- C3 witness at a concrete input. -/
theorem C3_wildcard_matching_witness :
    ∃ p ∈ effPermsDB dbC1 "u1",
      amendedMatch p "HR" "create" (some "candidate") = true :=
  (C3_wildcard_matching dbC1 0 "u1" "HR" "create" (some "candidate")).1.mp
    (by decide)

/-- C4 counterexample: the claim says that on any failure during the
computation (a storage error anywhere in the role or permission lookups)
the cache is not populated by the failed call.  With a store that raises
on every call, the role-lookup failure is swallowed inside getUserRoles,
the computation completes with the empty permission list, and that empty
list IS cached: the failed call leaves a cache entry with a full TTL. -/
theorem C4_failed_call_populates_cache :
    failStore.getRoleAssignments "u1" = .error () ∧
    (getUserPermissions failStore [] 0 "u1").1 = [] ∧
    List.lookup "u1" (getUserPermissions failStore [] 0 "u1").2 =
      some ⟨[], 300000⟩ :=
  ⟨rfl, rfl, rfl⟩

/-- C4 amended: a failure raised inside the permission-lookup phase (the
try block of getUserPermissions itself) returns the empty set and leaves
no cache entry for the user; but a storage failure inside getUserRoles is
swallowed there as an empty role list, so the computation succeeds and
the failed call caches the empty permission set with a full TTL. -/
theorem C4_fail_closed_cache (st : Store) (c : Cache) (now : Nat)
    (u : String) (hmiss : (getCachedPermissions c now u).1 = none) :
    (computePermissions st u = .error () →
      (getUserPermissions st c now u).1 = [] ∧
      List.lookup u (getUserPermissions st c now u).2 = none) ∧
    ((getUserPermissions failStore c now u).1 = [] ∧
      List.lookup u (getUserPermissions failStore c now u).2 =
        some ⟨[], now + CACHE_TTL⟩) := by
  cases hg : getCachedPermissions c now u with
  | mk o c2 =>
    have ho : o = none := by
      rw [hg] at hmiss
      exact hmiss
    subst ho
    constructor
    · intro herr
      simp only [getUserPermissions, hg, herr]
      refine ⟨trivial, ?_⟩
      have hl := lookup_after_miss c now u hmiss
      rw [hg] at hl
      exact hl
    · have hok : computePermissions failStore u = .ok [] := rfl
      simp only [getUserPermissions, hg, hok]
      exact ⟨trivial, lookup_cacheSet_self _ _ _⟩

/-- C4 witness at a concrete input. -/
theorem C4_fail_closed_cache_witness :
    (getCachedPermissions [] 0 "u1").1 = none ∧
    ((getUserPermissions failStore [] 0 "u1").1 = [] ∧
      List.lookup "u1" (getUserPermissions failStore [] 0 "u1").2 =
        some ⟨[], 0 + CACHE_TTL⟩) :=
  ⟨rfl, (C4_fail_closed_cache failStore [] 0 "u1" rfl).2⟩

/-- A concrete database with a SUPER_ADMIN wildcard grant: user u2 holds
one active assignment of a role with the all-wildcard permission; three
modules exist, one inactive. -/
def dbC5 : DB where
  roles := [⟨"r2", "SUPER_ADMIN", "Super Admin", "", true⟩]
  assignments := [⟨"a2", "u2", "r2", none, "boss",
    "2024-01-01T00:00:00.000Z", none, true⟩]
  permissions := [⟨"p2", "r2", "*", "*", "*", none, true⟩]
  modules := [⟨"m1", "HR", "Human Resources", true, 2⟩,
    ⟨"m2", "WMS", "Warehouse", true, 1⟩,
    ⟨"m3", "OLD", "Legacy", false, 0⟩]

/-- C5: over a well-behaved store and a fresh cache, if some computed
permission of the user carries the wildcard module code, getUserModules
returns the codes of all currently active modules (the full bypass, both
as the literal list the source builds and as a set); otherwise its result
is exactly the set of module codes explicitly named by the user
permissions; and with a storage layer raising on every call it returns
the empty list. -/
theorem C5_user_modules (db : DB) (now : Nat) (u : String) :
    ((effPermsDB db u).any (fun p => p.module_code == "*") = true →
      (getUserModules (Store.ofDB db) [] now u).1 =
        (Adapter.getActiveModules db).map (fun m => m.module_code) ∧
      ∀ code, code ∈ (getUserModules (Store.ofDB db) [] now u).1 ↔
        ∃ m ∈ db.modules, m.is_active = true ∧ m.module_code = code) ∧
    ((effPermsDB db u).any (fun p => p.module_code == "*") = false →
      ∀ code, code ∈ (getUserModules (Store.ofDB db) [] now u).1 ↔
        ∃ p ∈ effPermsDB db u, p.module_code = code) ∧
    (∀ c : Cache, List.lookup u c = none →
      (getUserModules failStore c now u).1 = []) := by
  have hfresh := getUserPermissions_fresh db [] now u rfl
  refine ⟨?_, ?_, ?_⟩
  · intro hw
    have hres : (getUserModules (Store.ofDB db) [] now u).1 =
        (Adapter.getActiveModules db).map (fun m => m.module_code) := by
      simp only [getUserModules, hfresh, hw, ofDB_getActiveModules, if_true]
    refine ⟨hres, ?_⟩
    intro code
    rw [hres]
    simp only [Adapter.getActiveModules, List.mem_map, List.mem_mergeSort,
      List.mem_filter]
    constructor
    · rintro ⟨m, ⟨hm, ha⟩, hc⟩
      exact ⟨m, hm, ha, hc⟩
    · rintro ⟨m, hm, ha, hc⟩
      exact ⟨m, ⟨hm, ha⟩, hc⟩
  · intro hw code
    have hres : (getUserModules (Store.ofDB db) [] now u).1 =
        dedupCodes (effPermsDB db u) := by
      simp [getUserModules, hfresh, hw]
    rw [hres, mem_dedupCodes]
    simp only [List.mem_map]
  · intro c hc
    have hperm : getUserPermissions failStore c now u =
        ([], setCachedPermissions c now u []) := by
      simp only [getUserPermissions, getCachedPermissions, hc]
      rfl
    simp [getUserModules, hperm, dedupCodes]

/-- C5 witness at concrete inputs, one per branch. -/
theorem C5_user_modules_witness :
    ((effPermsDB dbC5 "u2").any (fun p => p.module_code == "*") = true ∧
      (getUserModules (Store.ofDB dbC5) [] 0 "u2").1 =
        (Adapter.getActiveModules dbC5).map (fun m => m.module_code)) ∧
    ((effPermsDB dbC1 "u1").any (fun p => p.module_code == "*") = false ∧
      ("HR" ∈ (getUserModules (Store.ofDB dbC1) [] 0 "u1").1 ↔
        ∃ p ∈ effPermsDB dbC1 "u1", p.module_code = "HR")) :=
  ⟨⟨by decide, ((C5_user_modules dbC5 0 "u2").1 (by decide)).1⟩,
   ⟨by decide, ((C5_user_modules dbC1 0 "u1").2.1 (by decide)) "HR"⟩⟩

/-- Whether a fallible computation succeeded. -/
def exceptOk : Except ε α → Bool
  | .ok _ => true
  | .error _ => false

/-- The breaker invariant is preserved by one call. -/
lemma cbInv_step (cb : CB) (now : Nat) (oc : Except Unit Unit)
    (hInv : CBInv cb) : CBInv (cbExecute cb now oc).2 := by
  obtain ⟨f, s, na⟩ := cb
  cases s with
  | CLOSED =>
    cases oc with
    | ok a => intro h; simp [cbExecute, cbRunCall, cbOnSuccess] at h
    | error e =>
      simp only [cbExecute, cbRunCall, cbOnFailure]
      split
      · rename_i hcond
        intro _
        exact ⟨show cbThreshold ≤ f + 1 by omega, by simp⟩
      · intro h
        simp at h
  | OPEN =>
    have hf : cbThreshold ≤ f ∧ na ≠ none := hInv rfl
    by_cases w : cbWaiting na now = true
    · simp only [cbExecute]
      rw [if_pos w]
      exact hInv
    · simp only [cbExecute]
      rw [if_neg w]
      cases oc with
      | ok a =>
        intro h
        simp [cbRunCall, cbOnSuccess] at h
      | error e =>
        simp only [cbRunCall, cbOnFailure]
        split
        · rename_i hcond
          intro _
          exact ⟨show cbThreshold ≤ f + 1 by omega, by simp⟩
        · rename_i hcond
          simp only [ge_iff_le] at hcond
          exact absurd (Nat.le_succ_of_le hf.1) hcond
  | HALF_OPEN =>
    cases oc with
    | ok a => intro h; simp [cbExecute, cbRunCall, cbOnSuccess] at h
    | error e =>
      simp only [cbExecute, cbRunCall, cbOnFailure]
      split
      · rename_i hcond
        intro _
        exact ⟨show cbThreshold ≤ f + 1 by omega, by simp⟩
      · intro h
        simp at h

/-- C6: the circuit breaker state machine.  In order: (a) the breaker
starts CLOSED with zero failures; (b) from CLOSED a call moves it to OPEN
exactly when the call fails and the consecutive failure count reaches the
threshold 5; (c) while OPEN and strictly before nextAttempt every call
returns the unavailable error with the breaker unchanged, for ANY outcome
the wrapped function would produce — the network is never consulted; (d)
once the cool-down has elapsed the call is let through as a probe and its
success closes the breaker and resets the failure count; (e) with the
reachable-state invariant (threshold many failures while OPEN), a failing
probe reopens the breaker with the cool-down restarted from now; (f) the
invariant holds initially and is preserved by every call; (g) through the
retry wrapper of every SheetsClient operation, the accounting of an
allowed-through call changes by exactly one overall success or one
overall failure, however many attempts the retry loop made. -/
theorem C6_circuit_breaker :
    (initCB.state = .CLOSED ∧ initCB.failures = 0) ∧
    (∀ (cb : CB) (now : Nat) (oc : Except Unit Unit), cb.state = .CLOSED →
      ((cbExecute cb now oc).2.state = .OPEN ↔
        (exceptOk oc = false ∧ cbThreshold ≤ cb.failures + 1))) ∧
    (∀ (cb : CB) (now t : Nat) (oc : Except Unit Unit), cb.state = .OPEN →
      cb.nextAttempt = some t → now < t →
      cbExecute cb now oc = (.error .circuitOpen, cb)) ∧
    (∀ (cb : CB) (now t : Nat), cb.state = .OPEN → cb.nextAttempt = some t →
      t ≤ now →
      cbExecute cb now (.ok () : Except Unit Unit) =
        (.ok (), ⟨0, .CLOSED, cb.nextAttempt⟩)) ∧
    (∀ (cb : CB) (now t : Nat), cb.state = .OPEN → cb.nextAttempt = some t →
      t ≤ now → cbThreshold ≤ cb.failures →
      cbExecute cb now (.error () : Except Unit Unit) =
        (.error .underlying, ⟨cb.failures + 1, .OPEN, some (now + cbTimeout)⟩)) ∧
    (CBInv initCB ∧ ∀ (cb : CB) (now : Nat) (oc : Except Unit Unit),
      CBInv cb → CBInv (cbExecute cb now oc).2) ∧
    (∀ (cb : CB) (now : Nat) (attempts : Nat → Attempt Unit),
      (cb.state = .OPEN → cbWaiting cb.nextAttempt now = false) →
      (sheetsCall cb now attempts).2.failures =
        (if exceptOk (retryWithBackoff attempts 3) = true then 0
         else cb.failures + 1)) := by
  refine ⟨⟨rfl, rfl⟩, ?_, ?_, ?_, ?_, ⟨?_, ?_⟩, ?_⟩
  · rintro ⟨f, s, na⟩ now oc hs
    cases hs
    cases oc with
    | ok a =>
      simp [cbExecute, cbRunCall, cbOnSuccess, exceptOk]
    | error e =>
      simp only [cbExecute, cbRunCall, cbOnFailure, exceptOk]
      split
      · rename_i hcond
        simp only [ge_iff_le] at hcond
        simp [hcond]
      · rename_i hcond
        simp only [ge_iff_le] at hcond
        simp [hcond]
  · rintro ⟨f, s, na⟩ now t oc hs hna hlt
    cases hs
    cases hna
    simp [cbExecute, cbWaiting, hlt]
  · rintro ⟨f, s, na⟩ now t hs hna hle
    cases hs
    cases hna
    simp [cbExecute, cbWaiting, Nat.not_lt.mpr hle, cbRunCall, cbOnSuccess]
  · rintro ⟨f, s, na⟩ now t hs hna hle h5
    cases hs
    cases hna
    have h5' : cbThreshold ≤ f + 1 := Nat.le_succ_of_le h5
    simp [cbExecute, cbWaiting, Nat.not_lt.mpr hle, cbRunCall, cbOnFailure, h5']
  · intro h
    simp [initCB] at h
  · exact fun cb now oc hInv => cbInv_step cb now oc hInv
  · rintro ⟨f, s, na⟩ now attempts hallow
    cases hoc : retryWithBackoff attempts 3 with
    | ok a =>
      cases s with
      | OPEN =>
        have hw := hallow rfl
        simp [sheetsCall, cbExecute, hw, hoc, cbRunCall, cbOnSuccess, exceptOk]
      | CLOSED =>
        simp [sheetsCall, cbExecute, hoc, cbRunCall, cbOnSuccess, exceptOk]
      | HALF_OPEN =>
        simp [sheetsCall, cbExecute, hoc, cbRunCall, cbOnSuccess, exceptOk]
    | error e =>
      have hfail : ∀ (cb1 : CB), (cbOnFailure cb1 now).failures =
          cb1.failures + 1 := by
        intro cb1
        by_cases h5 : cbThreshold ≤ cb1.failures + 1 <;>
          simp [cbOnFailure, h5]
      cases s with
      | OPEN =>
        have hw := hallow rfl
        simp [sheetsCall, cbExecute, hw, hoc, cbRunCall, exceptOk, hfail]
      | CLOSED =>
        simp [sheetsCall, cbExecute, hoc, cbRunCall, exceptOk, hfail]
      | HALF_OPEN =>
        simp [sheetsCall, cbExecute, hoc, cbRunCall, exceptOk, hfail]

/-- C6 witness at concrete inputs. -/
theorem C6_circuit_breaker_witness :
    ((⟨4, .CLOSED, none⟩ : CB).state = .CLOSED ∧
      ((cbExecute ⟨4, .CLOSED, none⟩ 0 (.error () : Except Unit Unit)).2.state
        = .OPEN ↔
        (exceptOk (.error () : Except Unit Unit) = false ∧ cbThreshold ≤ 4 + 1))) ∧
    ((⟨5, .OPEN, some 100⟩ : CB).state = .OPEN ∧
      cbExecute ⟨5, .OPEN, some 100⟩ 40 (.ok () : Except Unit Unit) =
        (.error .circuitOpen, ⟨5, .OPEN, some 100⟩)) ∧
    cbExecute ⟨5, .OPEN, some 100⟩ 100 (.ok () : Except Unit Unit) =
      (.ok (), ⟨0, .CLOSED, some 100⟩) ∧
    cbExecute ⟨5, .OPEN, some 100⟩ 100 (.error () : Except Unit Unit) =
      (.error .underlying, ⟨6, .OPEN, some (100 + cbTimeout)⟩) ∧
    (sheetsCall ⟨2, .CLOSED, none⟩ 0
        (fun _ => (.err true : Attempt Unit))).2.failures =
      (if exceptOk (retryWithBackoff (fun _ => (.err true : Attempt Unit)) 3)
          = true then 0 else 2 + 1) :=
  ⟨⟨rfl, C6_circuit_breaker.2.1 ⟨4, .CLOSED, none⟩ 0 (.error ()) rfl⟩,
   ⟨rfl, C6_circuit_breaker.2.2.1 ⟨5, .OPEN, some 100⟩ 40 100 (.ok ()) rfl rfl
      (by decide)⟩,
   C6_circuit_breaker.2.2.2.1 ⟨5, .OPEN, some 100⟩ 100 100 rfl rfl
     (by decide),
   C6_circuit_breaker.2.2.2.2.1 ⟨5, .OPEN, some 100⟩ 100 100 rfl rfl
     (by decide) (by decide),
   C6_circuit_breaker.2.2.2.2.2.2 ⟨2, .CLOSED, none⟩ 0
     (fun _ => (.err true : Attempt Unit))
     (by intro h; exact absurd h (by decide))⟩

/-- A live cache entry is served directly: the permissions come from the
entry and the cache is untouched, whatever the store does. -/
lemma getUserPermissions_hit (st : Store) (c : Cache) (now1 : Nat)
    (u : String) (e : CacheEntry) (hl : List.lookup u c = some e)
    (hle : ¬now1 > e.expiresAt) :
    getUserPermissions st c now1 u = (e.permissions, c) := by
  have hg : getCachedPermissions c now1 u = (some e.permissions, c) := by
    simp only [getCachedPermissions, hl]
    rw [if_neg hle]
  simp only [getUserPermissions, hg]

/-- C7: the permission cache contract.  In order: (a) an inserted entry
carries expiry now plus CACHE_TTL, which is five minutes in
milliseconds; (b) a read of an entry whose expiry has passed is a miss
that lazily evicts the entry; (c) idempotence — if a call left a live
cache entry for the user, then a second call at any instant at or before
that expiry returns the identical permission list and the identical
cache, and does so for EVERY store, which is the model-level statement
that the second call performs no storage access. -/
theorem C7_cache_ttl_idempotence :
    (CACHE_TTL = 5 * 60 * 1000 ∧
      ∀ (c : Cache) (now : Nat) (u : String) (ps : List UserPermission),
        List.lookup u (setCachedPermissions c now u ps) =
          some ⟨ps, now + CACHE_TTL⟩) ∧
    (∀ (c : Cache) (now : Nat) (u : String) (e : CacheEntry),
      List.lookup u c = some e → e.expiresAt < now →
      getCachedPermissions c now u = (none, cacheDelete c u)) ∧
    (∀ (st : Store) (c : Cache) (now now1 : Nat) (u : String)
      (perms : List UserPermission) (c1 : Cache) (e : CacheEntry),
      getUserPermissions st c now u = (perms, c1) →
      List.lookup u c1 = some e → now1 ≤ e.expiresAt →
      e.permissions = perms ∧
      ∀ st2 : Store, getUserPermissions st2 c1 now1 u = (perms, c1)) := by
  refine ⟨⟨rfl, ?_⟩, ?_, ?_⟩
  · intro c now u ps
    exact lookup_cacheSet_self c u ⟨ps, now + CACHE_TTL⟩
  · intro c now u e hl hexp
    simp only [getCachedPermissions, hl]
    rw [if_pos hexp]
  · intro st c now now1 u perms c1 e h1 h2 hle
    have key : e.permissions = perms := by
      cases hl : List.lookup u c with
      | none =>
        have hg : getCachedPermissions c now u = (none, c) := by
          simp [getCachedPermissions, hl]
        simp only [getUserPermissions, hg] at h1
        cases hcp : computePermissions st u with
        | ok all =>
          rw [hcp] at h1
          injection h1 with hperms hcache
          subst hperms
          subst hcache
          simp only [setCachedPermissions] at h2
          rw [lookup_cacheSet_self] at h2
          injection h2 with he
          rw [← he]
        | error err =>
          rw [hcp] at h1
          injection h1 with hperms hcache
          subst hcache
          rw [hl] at h2
          cases h2
      | some e0 =>
        by_cases hexp : now > e0.expiresAt
        · have hg : getCachedPermissions c now u = (none, cacheDelete c u) := by
            simp only [getCachedPermissions, hl]
            rw [if_pos hexp]
          simp only [getUserPermissions, hg] at h1
          cases hcp : computePermissions st u with
          | ok all =>
            rw [hcp] at h1
            injection h1 with hperms hcache
            subst hperms
            subst hcache
            simp only [setCachedPermissions] at h2
            rw [lookup_cacheSet_self] at h2
            injection h2 with he
            rw [← he]
          | error err =>
            rw [hcp] at h1
            injection h1 with hperms hcache
            subst hcache
            rw [lookup_cacheDelete_self] at h2
            cases h2
        · have hg : getCachedPermissions c now u =
              (some e0.permissions, c) := by
            simp only [getCachedPermissions, hl]
            rw [if_neg hexp]
          simp only [getUserPermissions, hg] at h1
          injection h1 with hperms hcache
          subst hcache
          rw [hl] at h2
          injection h2 with he
          rw [← he, hperms]
    refine ⟨key, fun st2 => ?_⟩
    have hhit := getUserPermissions_hit st2 c1 now1 u e h2 (by omega)
    rw [key] at hhit
    exact hhit

/-- C7 witness at a concrete input: a fresh computation over dbC1 caches,
and a second call one millisecond later over the all-failing store
returns the same permissions and cache. -/
theorem C7_cache_ttl_idempotence_witness :
    getUserPermissions (Store.ofDB dbC1) [] 0 "u1" =
      ((getUserPermissions (Store.ofDB dbC1) [] 0 "u1").1,
       (getUserPermissions (Store.ofDB dbC1) [] 0 "u1").2) ∧
    List.lookup "u1" (getUserPermissions (Store.ofDB dbC1) [] 0 "u1").2 =
      some ⟨[⟨"HR", "create", "candidate", none⟩], CACHE_TTL⟩ ∧
    (⟨[⟨"HR", "create", "candidate", none⟩], CACHE_TTL⟩ :
        CacheEntry).permissions =
      (getUserPermissions (Store.ofDB dbC1) [] 0 "u1").1 ∧
    getUserPermissions failStore
      (getUserPermissions (Store.ofDB dbC1) [] 0 "u1").2 1 "u1" =
      ((getUserPermissions (Store.ofDB dbC1) [] 0 "u1").1,
       (getUserPermissions (Store.ofDB dbC1) [] 0 "u1").2) := by
  have h := C7_cache_ttl_idempotence.2.2 (Store.ofDB dbC1) [] 0 1 "u1"
    (getUserPermissions (Store.ofDB dbC1) [] 0 "u1").1
    (getUserPermissions (Store.ofDB dbC1) [] 0 "u1").2
    ⟨[⟨"HR", "create", "candidate", none⟩], CACHE_TTL⟩
    rfl (by decide) (by decide)
  exact ⟨rfl, by decide, h.1, h.2 failStore⟩

/-- C8: after assignRole completes, and after revokeRole completes
successfully, the cache holds no entry for the user (the mutation
invalidated it), so the next getUserPermissions call recomputes the
permission list from the mutated storage and caches that fresh result —
for EVERY prior cache content, including one holding a live entry for the
user whose TTL has not elapsed. -/
theorem C8_mutation_invalidates_cache (db : DB) (c : Cache)
    (u roleId assignedBy : String) (site exp : Option String)
    (newId ts : String) (now : Nat) :
    (List.lookup u
        (assignRole db c u roleId assignedBy site exp newId ts).2 = none ∧
      getUserPermissions
        (Store.ofDB (assignRole db c u roleId assignedBy site exp newId ts).1)
        (assignRole db c u roleId assignedBy site exp newId ts).2 now u =
        (effPermsDB (assignRole db c u roleId assignedBy site exp newId ts).1 u,
         setCachedPermissions
           (assignRole db c u roleId assignedBy site exp newId ts).2 now u
           (effPermsDB
             (assignRole db c u roleId assignedBy site exp newId ts).1 u))) ∧
    (∀ (aid : String) (db1 : DB) (c1 : Cache),
      revokeRole db c aid u = .ok (db1, c1) →
      List.lookup u c1 = none ∧
      getUserPermissions (Store.ofDB db1) c1 now u =
        (effPermsDB db1 u, setCachedPermissions c1 now u (effPermsDB db1 u))) := by
  constructor
  · refine ⟨lookup_cacheDelete_self c u, ?_⟩
    exact getUserPermissions_fresh _ _ now u (lookup_cacheDelete_self c u)
  · intro aid db1 c1 h
    cases hrev : dbRevokeRole db aid with
    | error e =>
      rw [revokeRole, hrev] at h
      cases h
    | ok db2 =>
      rw [revokeRole, hrev] at h
      injection h with hpair
      injection hpair with hdb hc
      subst hdb
      subst hc
      refine ⟨lookup_cacheDelete_self c u, ?_⟩
      exact getUserPermissions_fresh _ _ now u (lookup_cacheDelete_self c u)

/-- C8 witness at a concrete input: a cache holding a live entry for the
user is invalidated by a revocation, and the next lookup recomputes. -/
theorem C8_mutation_invalidates_cache_witness :
    revokeRole dbC1 [("u1", ⟨[⟨"HR", "create", "candidate", none⟩], 999999⟩)]
      "a1" "u1" =
      .ok ({ dbC1 with assignments := [⟨"a1", "u1", "r1", none, "boss",
        "2020-01-01T00:00:00.000Z", some "2020-06-01T00:00:00.000Z",
        false⟩] }, []) ∧
    (List.lookup "u1" ([] : Cache) = none ∧
      getUserPermissions
        (Store.ofDB { dbC1 with assignments := [⟨"a1", "u1", "r1", none,
          "boss", "2020-01-01T00:00:00.000Z",
          some "2020-06-01T00:00:00.000Z", false⟩] }) [] 7 "u1" =
        (effPermsDB { dbC1 with assignments := [⟨"a1", "u1", "r1", none,
          "boss", "2020-01-01T00:00:00.000Z",
          some "2020-06-01T00:00:00.000Z", false⟩] } "u1",
         setCachedPermissions [] 7 "u1"
           (effPermsDB { dbC1 with assignments := [⟨"a1", "u1", "r1", none,
             "boss", "2020-01-01T00:00:00.000Z",
             some "2020-06-01T00:00:00.000Z", false⟩] } "u1"))) :=
  ⟨rfl,
   (C8_mutation_invalidates_cache dbC1
      [("u1", ⟨[⟨"HR", "create", "candidate", none⟩], 999999⟩)]
      "u1" "r1" "boss" none none "x" "t" 7).2 "a1" _ _ rfl⟩

/-- A concrete system log record. -/
def logC9 : SystemLog :=
  ⟨"l1", "2024-01-01T00:00:00.000Z", "ERROR", none, none, none,
   "boom", none, none⟩

/-- C9 counterexample: the claim says createSystemLog never raises to its
caller.  But the source awaits sheets.append with no try/catch, so an
append failure propagates: with every attempt failing transiently the
call surfaces the storage error after the retries are exhausted, and with
the breaker OPEN inside the cool-down it surfaces the circuit-open error
without touching the network. -/
theorem C9_log_raises_counterexample :
    (createSystemLog logC9 initCB 0
      (fun _ => (.err true : Attempt Unit))).1 = .error .underlying ∧
    (createSystemLog logC9 ⟨5, .OPEN, some 100⟩ 40
      (fun _ => (.ok () : Attempt Unit))).1 = .error .circuitOpen := by
  exact ⟨rfl, rfl⟩

/-- C9 amended: createSystemLog does not swallow storage failures — when
the underlying append fails (retries exhausted, or circuit open during
the cool-down) the error propagates to the caller of createSystemLog. -/
theorem C9_log_propagates (log : SystemLog) (cb : CB) (now : Nat)
    (attempts : Nat → Attempt Unit) :
    ((cb.state = .OPEN → cbWaiting cb.nextAttempt now = false) →
      retryWithBackoff attempts 3 = .error () →
      (createSystemLog log cb now attempts).1 = .error .underlying) ∧
    (∀ t, cb.state = .OPEN → cb.nextAttempt = some t → now < t →
      (createSystemLog log cb now attempts).1 = .error .circuitOpen) := by
  obtain ⟨f, s, na⟩ := cb
  constructor
  · intro hallow herr
    cases s with
    | OPEN =>
      have hw := hallow rfl
      simp [createSystemLog, sheetsCall, cbExecute, hw, herr, cbRunCall]
    | CLOSED =>
      simp [createSystemLog, sheetsCall, cbExecute, herr, cbRunCall]
    | HALF_OPEN =>
      simp [createSystemLog, sheetsCall, cbExecute, herr, cbRunCall]
  · intro t hs hna hlt
    cases hs
    cases hna
    simp [createSystemLog, sheetsCall, cbExecute, cbWaiting, hlt]

/-- C9 witness at concrete inputs. -/
theorem C9_log_propagates_witness :
    (createSystemLog logC9 ⟨0, .CLOSED, none⟩ 5
      (fun _ => (.err true : Attempt Unit))).1 = .error .underlying ∧
    (createSystemLog logC9 ⟨5, .OPEN, some 200⟩ 150
      (fun _ => (.ok () : Attempt Unit))).1 = .error .circuitOpen :=
  ⟨(C9_log_propagates logC9 ⟨0, .CLOSED, none⟩ 5
      (fun _ => (.err true : Attempt Unit))).1
      (by intro h; exact absurd h (by decide)) rfl,
   (C9_log_propagates logC9 ⟨5, .OPEN, some 200⟩ 150
      (fun _ => (.ok () : Attempt Unit))).2 200 rfl rfl (by decide)⟩

/-- C10: parseBoolean yields true exactly for the boolean cell true and
for string cells whose per-character uppercasing equals TRUE (that is,
strings equal to TRUE case-insensitively); every other cell — numbers,
empty or absent cells, malformed strings — yields false, and the
is_active flag of a mapped role assignment row is exactly parseBoolean of
its column 7, so a corrupted active flag deserializes to inactive. -/
theorem C10_parse_boolean :
    (∀ c : Cell, parseBoolean c = true ↔
      (c = .boolean true ∨ ∃ s, c = .str s ∧ strToUpper s = "TRUE")) ∧
    (∀ row : List Cell, (mapRowToRoleAssignment row).is_active =
      parseBoolean (row.getD 7 .empty)) := by
  constructor
  · intro c
    cases c with
    | boolean b => cases b <;> simp [parseBoolean]
    | str s => simp [parseBoolean]
    | num n => simp [parseBoolean]
    | empty => simp [parseBoolean]
  · intro row
    rfl

/-- C10 witness at concrete inputs. -/
theorem C10_parse_boolean_witness :
    parseBoolean (.str "tRuE") = true ∧
    (mapRowToRoleAssignment []).is_active = parseBoolean (.empty) :=
  ⟨(C10_parse_boolean.1 (.str "tRuE")).mpr
      (Or.inr ⟨"tRuE", rfl, by decide⟩),
   C10_parse_boolean.2 []⟩

end CrystalCore
